import Mathlib

/-!
Verification of `src/mydofns/synthetic_sdfn_streaming.py`: the partition
state object (`MyPartition`), the restriction tracker
(`MyPartitionRestrictionTracker`) with its split protocol, and the
poll-claim-emit-commit step of `ProcessPartitionsSplittableDoFn.process`.

Python's mutable objects are embedded in state-passing style: a method that
mutates `self` returns the updated record; a method that both returns a value
and could mutate returns a pair `(value, self)`.  Offsets are Python `int`,
embedded as `Int`.  The split fraction is a Python float used only for an
exact comparison with `0`, embedded as `ℚ`.
-/

/-- The mutable offset-space record of one partition
(`MyPartition.__init__`): a stable `id`, the highest produced offset
`last_offset` (Python field `_last_offset`), and the committed frontier
`committed_offset` (Python field `_committed_offset`). -/
structure MyPartition where
  id : Int
  last_offset : Int
  committed_offset : Int
deriving DecidableEq, Repr

/-- `MyPartition.poll` (lines 23-28): returns `committed_offset + 1` unless
that exceeds `last_offset`, in which case it returns `None`.  The method
performs no assignment, so the returned state is the input state. -/
def MyPartition.poll (p : MyPartition) : Option Int × MyPartition :=
  let offset := p.committed_offset + 1
  if offset > p.last_offset then
    (none, p)
  else
    (some offset, p)

/-- `MyPartition.commit` (lines 30-31): `self._committed_offset += 1`. -/
def MyPartition.commit (p : MyPartition) : MyPartition :=
  { p with committed_offset := p.committed_offset + 1 }

/-- `MyPartition.size` (lines 33-34): `self._last_offset + 1`
(offsets start at 0). -/
def MyPartition.size (p : MyPartition) : Int :=
  p.last_offset + 1

/-- `MyPartition.get_committed_position` (lines 36-37). -/
def MyPartition.get_committed_position (p : MyPartition) : Int :=
  p.committed_offset

/-- `MyPartition.add_new_messages` (lines 39-40):
`self._last_offset += n`. -/
def MyPartition.add_new_messages (p : MyPartition) (n : Int) : MyPartition :=
  { p with last_offset := p.last_offset + n }

/-- `k` successive `commit()` calls on a partition. -/
def MyPartition.commitK (p : MyPartition) : Nat → MyPartition
  | 0 => p
  | k + 1 => (p.commitK k).commit

/-- C4: `poll()` returns `committed_offset + 1` exactly when that value is
`≤ last_offset`, and otherwise returns none; in particular every returned
value is `≤ last_offset`. -/
theorem poll_returns_next_uncommitted (p : MyPartition) (v : Int) :
    (p.poll.1 = some v ↔ v = p.committed_offset + 1 ∧ v ≤ p.last_offset) ∧
    (p.poll.1 = none ↔ p.last_offset < p.committed_offset + 1) := by
  unfold MyPartition.poll
  constructor
  · constructor
    · intro h
      by_cases hgt : p.committed_offset + 1 > p.last_offset
      · simp [hgt] at h
      · simp [hgt] at h
        omega
    · rintro ⟨rfl, hle⟩
      have hgt : ¬ p.committed_offset + 1 > p.last_offset := by omega
      simp [hgt]
  · by_cases hgt : p.committed_offset + 1 > p.last_offset <;> simp [hgt]

/-- C5: `commit()` advances `committed_offset` by exactly 1, `k` commits
starting from `c0` land on `c0 + k`, and the first `poll()` after a
`commit()` returns the pre-commit `committed_offset + 2` or none. -/
theorem commit_advances_by_one (p : MyPartition) (k : Nat) :
    p.commit.committed_offset = p.committed_offset + 1 ∧
    (p.commitK k).committed_offset = p.committed_offset + k ∧
    (p.commit.poll.1 = some (p.committed_offset + 2) ∨
      p.commit.poll.1 = none) := by
  refine ⟨rfl, ?_, ?_⟩
  · induction k with
    | zero => simp [MyPartition.commitK]
    | succ n ih =>
        simp [MyPartition.commitK, MyPartition.commit, ih]
        omega
  · unfold MyPartition.poll MyPartition.commit
    by_cases hgt : p.committed_offset + 1 + 1 > p.last_offset
    · right
      simp [hgt]
    · left
      simp [hgt]
      omega

/-- C6: for `n > 0`, `add_new_messages(n)` increases `last_offset` by
exactly `n`, and `size() = last_offset + 1` holds before and after. -/
theorem add_new_messages_grows_last_offset (p : MyPartition) (n : Int)
    (_hn : 0 < n) :
    (p.add_new_messages n).last_offset = p.last_offset + n ∧
    p.size = p.last_offset + 1 ∧
    (p.add_new_messages n).size = (p.add_new_messages n).last_offset + 1 :=
  ⟨rfl, rfl, rfl⟩

/-- Witness for C6 at the concrete partition `⟨0, 5, 2⟩` and `n = 3`. -/
theorem add_new_messages_grows_last_offset_witness :
    (0 : Int) < 3 ∧
    ((MyPartition.mk 0 5 2).add_new_messages 3).last_offset = 5 + 3 ∧
    (MyPartition.mk 0 5 2).size = 5 + 1 ∧
    ((MyPartition.mk 0 5 2).add_new_messages 3).size =
      ((MyPartition.mk 0 5 2).add_new_messages 3).last_offset + 1 :=
  ⟨by decide, add_new_messages_grows_last_offset (MyPartition.mk 0 5 2) 3 (by decide)⟩

/-- C10: `poll()` is read-only: it leaves `id`, `last_offset` and
`committed_offset` unchanged, so a repeated `poll()` with no intervening
mutation returns the same result. -/
theorem poll_read_only (p : MyPartition) :
    p.poll.2.id = p.id ∧
    p.poll.2.last_offset = p.last_offset ∧
    p.poll.2.committed_offset = p.committed_offset ∧
    p.poll.2.poll.1 = p.poll.1 := by
  unfold MyPartition.poll
  by_cases hgt : p.committed_offset + 1 > p.last_offset
  · simp [hgt]
  · simp [hgt]

/-- A half-open offset interval `[start, stop)`
(`apache_beam.io.restriction_trackers.OffsetRange`). -/
structure OffsetRange where
  start : Int
  stop : Int
deriving DecidableEq, Repr

/-- Modelled from the spec: `OffsetRange.split_at` comes from the
`apache_beam` library, whose source is not in this repository.  Per the
spec's split step, splitting `[start, stop)` at `split_point` yields the
retained part `[start, split_point)` and the residual
`[split_point, stop)`. -/
def OffsetRange.split_at (r : OffsetRange) (split_point : Int) :
    OffsetRange × OffsetRange :=
  (OffsetRange.mk r.start split_point, OffsetRange.mk split_point r.stop)

/-- State of `MyPartitionRestrictionTracker` (line 43): the owned `range`
(Python field `_range`), the last claim attempt (`_last_claim_attempt`,
`None` before any claim), and the checkpoint flag (`_checkpointed`).  The
fields and their initial values (`None`, `False`) come from the
`apache_beam` `OffsetRestrictionTracker` base class, as described by the
spec's data model. -/
structure MyPartitionRestrictionTracker where
  range : OffsetRange
  last_claim_attempt : Option Int
  checkpointed : Bool
deriving DecidableEq, Repr

/-- The split point `try_split` would use (lines 46-50): one past the last
claim attempt, or `range.start` (i.e. `(start - 1) + 1`) when no claim has
occurred. -/
def MyPartitionRestrictionTracker.splitPoint
    (t : MyPartitionRestrictionTracker) : Int :=
  (match t.last_claim_attempt with
    | none => t.range.start - 1
    | some c => c) + 1

/-- `MyPartitionRestrictionTracker.try_split` (lines 44-55).  Returns the
`(retained, residual)` pair on success and `None` on refusal, paired with
the updated tracker state.  The split fraction only matters through the
exact comparison `fraction_of_remainder == 0`, embedded over `ℚ`. -/
def MyPartitionRestrictionTracker.try_split
    (t : MyPartitionRestrictionTracker) (fraction_of_remainder : ℚ) :
    Option (OffsetRange × OffsetRange) × MyPartitionRestrictionTracker :=
  if !t.checkpointed then
    let cur := match t.last_claim_attempt with
      | none => t.range.start - 1
      | some c => c
    let split_point := cur + 1
    if split_point ≤ t.range.stop then
      let t1 := if fraction_of_remainder = 0 then
          { t with checkpointed := true }
        else t
      let res := t.range.split_at split_point
      (some res, { t1 with range := res.1 })
    else
      (none, t)
  else
    (none, t)

/-- Modelled from the spec: `try_claim` is inherited from the `apache_beam`
`OffsetRestrictionTracker` base class, whose source is not in this
repository.  Per the spec it succeeds only if the offset is strictly
greater than `last_claim_attempt` (or `≥ start` if no prior claim) and
`< stop`; on success it records the offset as `last_claim_attempt` and
returns success, otherwise it returns failure. -/
def MyPartitionRestrictionTracker.try_claim
    (t : MyPartitionRestrictionTracker) (offset : Int) :
    Bool × MyPartitionRestrictionTracker :=
  let ok := (match t.last_claim_attempt with
      | none => decide (t.range.start ≤ offset)
      | some c => decide (c < offset)) && decide (offset < t.range.stop)
  if ok then
    (true, { t with last_claim_attempt := some offset })
  else
    (false, t)

/-- `MyPartitionRestrictionTracker.is_bounded` (lines 57-58). -/
def MyPartitionRestrictionTracker.is_bounded
    (_t : MyPartitionRestrictionTracker) : Bool :=
  false

/-- Refusal when already checkpointed: shared helper for the split
theorems. -/
theorem try_split_of_checkpointed (t : MyPartitionRestrictionTracker)
    (f : ℚ) (h : t.checkpointed = true) : t.try_split f = (none, t) := by
  unfold MyPartitionRestrictionTracker.try_split
  simp [h]

/-- Closed form of `try_split` on a non-checkpointed tracker: shared helper
for the split theorems. -/
theorem try_split_not_checkpointed_eq (t : MyPartitionRestrictionTracker)
    (f : ℚ) (h : t.checkpointed = false) :
    t.try_split f =
      if t.splitPoint ≤ t.range.stop then
        (some (OffsetRange.mk t.range.start t.splitPoint,
               OffsetRange.mk t.splitPoint t.range.stop),
         MyPartitionRestrictionTracker.mk
           (OffsetRange.mk t.range.start t.splitPoint)
           t.last_claim_attempt (decide (f = 0)))
      else (none, t) := by
  unfold MyPartitionRestrictionTracker.try_split
    MyPartitionRestrictionTracker.splitPoint OffsetRange.split_at
  cases hl : t.last_claim_attempt <;>
    simp [h, hl] <;>
    split_ifs <;>
    simp_all

/-- C1 (amended to non-checkpointed trackers): `try_split` uses split point
`last_claim_attempt + 1` (or `start` when no claim has occurred), refuses
when it exceeds `stop`, and otherwise narrows the tracker's range to
`[start, split_point)` returning it with the residual `[split_point, stop)`;
the split point is strictly greater than the last claimed offset and the
residual's stop equals the original stop. -/
theorem try_split_splits_at_claim_frontier
    (t : MyPartitionRestrictionTracker) (f : ℚ)
    (h : t.checkpointed = false) :
    (t.splitPoint = match t.last_claim_attempt with
      | none => t.range.start
      | some c => c + 1) ∧
    (t.range.stop < t.splitPoint → t.try_split f = (none, t)) ∧
    (t.splitPoint ≤ t.range.stop →
      (t.try_split f).1 =
        some (OffsetRange.mk t.range.start t.splitPoint,
              OffsetRange.mk t.splitPoint t.range.stop) ∧
      (t.try_split f).2.range = OffsetRange.mk t.range.start t.splitPoint) ∧
    (∀ c, t.last_claim_attempt = some c → c < t.splitPoint) ∧
    (∀ prim res t1, t.try_split f = (some (prim, res), t1) →
      res.stop = t.range.stop) := by
  refine ⟨?_, ?_, ?_, ?_, ?_⟩
  · cases hl : t.last_claim_attempt <;>
      simp [MyPartitionRestrictionTracker.splitPoint, hl]
  · intro hst
    rw [try_split_not_checkpointed_eq t f h]
    have : ¬ t.splitPoint ≤ t.range.stop := by omega
    simp [this]
  · intro hst
    rw [try_split_not_checkpointed_eq t f h]
    simp [hst]
  · intro c hc
    simp [MyPartitionRestrictionTracker.splitPoint, hc]
  · intro prim res t1 hsplit
    rw [try_split_not_checkpointed_eq t f h] at hsplit
    by_cases hst : t.splitPoint ≤ t.range.stop
    · simp [hst] at hsplit
      obtain ⟨⟨h1, h2⟩, h3⟩ := hsplit
      rw [← h2]
    · simp [hst] at hsplit

/-- Witness for the amended C1 at the tracker with range `[2, 10)`, last
claim attempt `4`, not checkpointed, and fraction `1/2`: the split yields
retained `[2, 5)` and residual `[5, 10)` and narrows the range. -/
theorem try_split_splits_at_claim_frontier_witness :
    (MyPartitionRestrictionTracker.mk (OffsetRange.mk 2 10) (some 4)
      false).checkpointed = false ∧
    ((MyPartitionRestrictionTracker.mk (OffsetRange.mk 2 10) (some 4)
      false).try_split (1/2)).1 =
      some (OffsetRange.mk 2 5, OffsetRange.mk 5 10) ∧
    ((MyPartitionRestrictionTracker.mk (OffsetRange.mk 2 10) (some 4)
      false).try_split (1/2)).2.range = OffsetRange.mk 2 5 :=
  have h := try_split_splits_at_claim_frontier
    (MyPartitionRestrictionTracker.mk (OffsetRange.mk 2 10) (some 4) false)
    (1/2) rfl
  ⟨rfl, (h.2.2.1 (by decide)).1, (h.2.2.1 (by decide)).2⟩

/-- Counterexample to C1 as stated for every tracker state: on a
checkpointed tracker with range `[0, 10)` and no claim, the split point `0`
does not exceed `stop = 10`, yet `try_split 1` refuses (returns no ranges)
instead of narrowing the range and returning the residual. -/
theorem try_split_universal_counterexample :
    (MyPartitionRestrictionTracker.mk (OffsetRange.mk 0 10) none
      true).splitPoint ≤
      (MyPartitionRestrictionTracker.mk (OffsetRange.mk 0 10) none
        true).range.stop ∧
    ((MyPartitionRestrictionTracker.mk (OffsetRange.mk 0 10) none
      true).try_split 1).1 = none := by
  constructor
  · decide
  · rfl

/-- C2: a successful `try_split(0)` sets `checkpointed`, and every
subsequent `try_split` on the resulting tracker (for any fraction) is
refused, leaving the tracker unchanged — so the refusal persists. -/
theorem try_split_zero_sets_checkpoint
    (t t1 : MyPartitionRestrictionTracker) (res : OffsetRange × OffsetRange)
    (h : t.try_split 0 = (some res, t1)) :
    t1.checkpointed = true ∧
    ∀ f : ℚ, t1.try_split f = (none, t1) := by
  have hc : t.checkpointed = false := by
    cases hc : t.checkpointed
    · rfl
    · rw [try_split_of_checkpointed t 0 hc] at h
      simp at h
  rw [try_split_not_checkpointed_eq t 0 hc] at h
  by_cases hst : t.splitPoint ≤ t.range.stop
  · simp [hst] at h
    obtain ⟨h1, h2⟩ := h
    have hck : t1.checkpointed = true := by
      rw [← h2]
    exact ⟨hck, fun f => try_split_of_checkpointed t1 f hck⟩
  · simp [hst] at h

/-- Witness for C2: on the tracker with range `[0, 10)`, no claim and not
checkpointed, `try_split 0` succeeds producing a checkpointed tracker that
refuses a later `try_split 1`. -/
theorem try_split_zero_sets_checkpoint_witness :
    (MyPartitionRestrictionTracker.mk (OffsetRange.mk 0 10) none
      false).try_split 0 =
      (some (OffsetRange.mk 0 0, OffsetRange.mk 0 10),
       MyPartitionRestrictionTracker.mk (OffsetRange.mk 0 0) none true) ∧
    (MyPartitionRestrictionTracker.mk (OffsetRange.mk 0 0) none
      true).checkpointed = true ∧
    (MyPartitionRestrictionTracker.mk (OffsetRange.mk 0 0) none
      true).try_split 1 =
      (none, MyPartitionRestrictionTracker.mk (OffsetRange.mk 0 0) none
        true) :=
  have h := try_split_zero_sets_checkpoint
    (MyPartitionRestrictionTracker.mk (OffsetRange.mk 0 10) none false)
    (MyPartitionRestrictionTracker.mk (OffsetRange.mk 0 0) none true)
    (OffsetRange.mk 0 0, OffsetRange.mk 0 10) (by decide)
  ⟨by decide, h.1, h.2 1⟩

/-- C3: a successful `try_claim(x)` entails the success guard (`x` strictly
above the last claim attempt, or `≥ start` with no prior claim, and
`x < stop`), records `x` as the last claim attempt, and any later attempt
on an offset `y ≤ x` through the resulting tracker returns failure. -/
theorem try_claim_strictly_monotonic
    (t t1 : MyPartitionRestrictionTracker) (x : Int)
    (h : t.try_claim x = (true, t1)) :
    ((match t.last_claim_attempt with
       | none => t.range.start ≤ x
       | some c => c < x) ∧ x < t.range.stop) ∧
    t1.last_claim_attempt = some x ∧
    ∀ y : Int, y ≤ x → (t1.try_claim y).1 = false := by
  have hmono : ∀ (s : MyPartitionRestrictionTracker) (y : Int),
      s.last_claim_attempt = some x → y ≤ x →
      (s.try_claim y).1 = false := by
    intro s y hs hy
    unfold MyPartitionRestrictionTracker.try_claim
    have hxy : decide (x < y) = false := by simp; omega
    simp [hs, hxy]
  unfold MyPartitionRestrictionTracker.try_claim at h
  cases hl : t.last_claim_attempt with
  | none =>
      rw [hl] at h
      simp only [Bool.and_eq_true, decide_eq_true_eq] at h
      split_ifs at h with hcond
      · simp only [Prod.mk.injEq, true_and] at h
        subst h
        exact ⟨by simp [hl]; exact hcond, rfl,
          fun y hy => hmono _ y rfl hy⟩
      · simp at h
  | some c =>
      rw [hl] at h
      simp only [Bool.and_eq_true, decide_eq_true_eq] at h
      split_ifs at h with hcond
      · simp only [Prod.mk.injEq, true_and] at h
        subst h
        exact ⟨by simp [hl]; exact hcond, rfl,
          fun y hy => hmono _ y rfl hy⟩
      · simp at h

/-- Witness for C3: claiming offset `4` on the fresh tracker over `[0, 10)`
succeeds, records `4`, and a repeated attempt at `4` fails. -/
theorem try_claim_strictly_monotonic_witness :
    (((0 : Int) ≤ 4) ∧ (4 : Int) < 10) ∧
    (MyPartitionRestrictionTracker.mk (OffsetRange.mk 0 10) (some 4)
      false).last_claim_attempt = some 4 ∧
    ((MyPartitionRestrictionTracker.mk (OffsetRange.mk 0 10) (some 4)
      false).try_claim 4).1 = false :=
  have h := try_claim_strictly_monotonic
    (MyPartitionRestrictionTracker.mk (OffsetRange.mk 0 10) none false)
    (MyPartitionRestrictionTracker.mk (OffsetRange.mk 0 10) (some 4) false)
    4 (by decide)
  ⟨h.1, h.2.1, h.2.2 4 (by decide)⟩

/-- C9: a refused `try_split` — refused because the tracker is already
checkpointed or because the split point exceeds `stop` — returns `None` and
leaves the whole tracker state unchanged (in particular a `try_split 0`
refused for being past `stop` does not set `checkpointed`). -/
theorem try_split_refusal_leaves_state
    (t : MyPartitionRestrictionTracker) (f : ℚ)
    (h : t.checkpointed = true ∨ t.range.stop < t.splitPoint) :
    t.try_split f = (none, t) := by
  rcases h with hc | hst
  · exact try_split_of_checkpointed t f hc
  · cases hc : t.checkpointed
    · rw [try_split_not_checkpointed_eq t f hc]
      have : ¬ t.splitPoint ≤ t.range.stop := by omega
      simp [this]
    · exact try_split_of_checkpointed t f hc

/-- Witness for C9: on the non-checkpointed tracker over `[0, 3)` whose
last claim attempt is `3`, the split point `4` is past `stop`, and
`try_split 0` returns `None` with the state — including the unset
`checkpointed` flag — unchanged. -/
theorem try_split_refusal_leaves_state_witness :
    ((MyPartitionRestrictionTracker.mk (OffsetRange.mk 0 3) (some 3)
        false).checkpointed = true ∨
      (MyPartitionRestrictionTracker.mk (OffsetRange.mk 0 3) (some 3)
        false).range.stop <
        (MyPartitionRestrictionTracker.mk (OffsetRange.mk 0 3) (some 3)
          false).splitPoint) ∧
    (MyPartitionRestrictionTracker.mk (OffsetRange.mk 0 3) (some 3)
      false).try_split 0 =
      (none, MyPartitionRestrictionTracker.mk (OffsetRange.mk 0 3) (some 3)
        false) :=
  ⟨Or.inr (by decide),
   try_split_refusal_leaves_state
     (MyPartitionRestrictionTracker.mk (OffsetRange.mk 0 3) (some 3) false)
     0 (Or.inr (by decide))⟩

/-- Python's `sys.maxsize` on a 64-bit platform: the finite sentinel the
code uses as the unbounded (`+∞`) upper end of an initial restriction. -/
def sysMaxsize : Int :=
  2 ^ 63 - 1

/-- `ProcessPartitionsSplittableDoFn.initial_restriction` (lines 119-123):
the range from `get_committed_position() + 1` to `sys.maxsize`.  The Python
`is None` fallback to `-1` is unreachable because `get_committed_position`
always returns the integer field, so it does not appear here. -/
def ProcessPartitionsSplittableDoFn.initial_restriction
    (element : MyPartition) : OffsetRange :=
  let committed_offset := element.get_committed_position
  OffsetRange.mk (committed_offset + 1) sysMaxsize

/-- `ProcessPartitionsSplittableDoFn.restriction_size` (lines 125-126)
via `OffsetRange.size`, modelled from the spec as the extent of
`[start, stop)`. -/
def OffsetRange.size (r : OffsetRange) : Int :=
  r.stop - r.start

/-- Outcome of one iteration of the processing loop for the deterministic
poll-claim-emit-commit path: either a pair is emitted and the partition is
committed, or the loop terminates, or the poll was empty. -/
inductive StepResult where
  | emitted : Int × String → MyPartition → MyPartitionRestrictionTracker →
      StepResult
  | terminated : MyPartition → MyPartitionRestrictionTracker → StepResult
  | empty : MyPartition → MyPartitionRestrictionTracker → StepResult
deriving DecidableEq

/-- One iteration of the `while True` loop of
`ProcessPartitionsSplittableDoFn.process` (lines 88-96), restricted to its
deterministic poll-claim-emit-commit path: the random growth injection and
the sleep (lines 98-111) are environment actions that do not touch the
tracker or the poll-claim-commit state.  The message is the f-string of
line 92, with `element.size()` read before `element.commit()`. -/
def processIteration (element : MyPartition)
    (tracker : MyPartitionRestrictionTracker) : StepResult :=
  match (element.poll).1 with
  | some offset_to_process =>
      let claim := tracker.try_claim offset_to_process
      if claim.1 then
        let msg := "Processed: " ++ toString offset_to_process ++
          "   Last: " ++ toString element.size
        StepResult.emitted (element.id, msg) element.commit claim.2
      else
        StepResult.terminated element claim.2
  | none => StepResult.empty element tracker

/-- C7: the initial restriction of a partition starts at
`committed_offset + 1` and its upper end is the unbounded sentinel
`sys.maxsize`. -/
theorem initial_restriction_starts_after_committed (p : MyPartition) :
    (ProcessPartitionsSplittableDoFn.initial_restriction p).start =
      p.committed_offset + 1 ∧
    (ProcessPartitionsSplittableDoFn.initial_restriction p).stop =
      sysMaxsize :=
  ⟨rfl, rfl⟩

/-- C8: when `poll()` yields an offset, a successful claim makes the loop
iteration emit `(id, "Processed: {offset}   Last: {size}")` — size read
before the commit — and commit the partition; a failed claim terminates
the iteration with no emission and no commit. -/
theorem process_iteration_emits_then_commits (p : MyPartition)
    (t t1 : MyPartitionRestrictionTracker) (offset : Int)
    (hpoll : (p.poll).1 = some offset) :
    (t.try_claim offset = (true, t1) →
      processIteration p t =
        StepResult.emitted
          (p.id, "Processed: " ++ toString offset ++ "   Last: " ++
            toString p.size)
          p.commit t1) ∧
    (t.try_claim offset = (false, t1) →
      processIteration p t = StepResult.terminated p t1) := by
  constructor
  · intro hclaim
    unfold processIteration
    rw [hpoll]
    simp [hclaim]
  · intro hclaim
    unfold processIteration
    rw [hpoll]
    simp [hclaim]

/-- Witness for C8 on the partition `⟨0, 5, 2⟩` (so `poll()` yields `3` and
`size()` is `6`) and the fresh tracker over `[3, 100)`: the claim of `3`
succeeds, the exact message is emitted, and the partition is committed. -/
theorem process_iteration_emits_then_commits_witness :
    ((MyPartition.mk 0 5 2).poll).1 = some 3 ∧
    processIteration (MyPartition.mk 0 5 2)
      (MyPartitionRestrictionTracker.mk (OffsetRange.mk 3 100) none false) =
      StepResult.emitted (0, "Processed: 3   Last: 6")
        (MyPartition.mk 0 5 3)
        (MyPartitionRestrictionTracker.mk (OffsetRange.mk 3 100) (some 3)
          false) :=
  have h := process_iteration_emits_then_commits (MyPartition.mk 0 5 2)
    (MyPartitionRestrictionTracker.mk (OffsetRange.mk 3 100) none false)
    (MyPartitionRestrictionTracker.mk (OffsetRange.mk 3 100) (some 3) false)
    3 rfl
  ⟨rfl, h.1 rfl⟩
